import Mathlib

/-!
# Shallow embedding of `nav_to_center/env.py` (simple-emergent-navigation)

This file embeds the environment core of the repository — the abstract
`Navigation` episode state machine and its two concrete variants
`NavToCenter` and `NavToEdges` — as Lean definitions over the reals, and
proves/refutes the frozen claims about it.

Modelling conventions:
* Python floats are modelled as real numbers `ℝ`; Python ints as `ℤ`.
* The mutable `gym.Env` object is a record `Nav` holding both the
  construction-time configuration fields and the mutable episode state,
  exactly the attributes the Python object carries.  Methods become
  functions `Nav → …` returning the updated record.
* Methods that can raise return the post-call record together with an
  `Except NavError _` result, so that the state mutations performed before
  a raise are visible (Python exceptions do not roll back attribute
  assignments).
* The two random draws of `_reset_location` (the 2-d normal vector `u`
  and the uniform draw `t`) are passed in as explicit parameters; the
  distributional facts (`u ≠ 0`, range of `t`) appear as hypotheses.
* Actions are 1-d arrays modelled as `List ℝ`; the shape check
  `action.shape == (2,)` becomes a pattern match on `[ax, ay]`.
-/

namespace SimpleNav

/-- `get_norm` in `env.py`: Euclidean norm of a 2-vector,
`np.sqrt((x ** 2).sum(-1))`. -/
noncomputable def get_norm (v : ℝ × ℝ) : ℝ := Real.sqrt (v.1 ^ 2 + v.2 ^ 2)

/-- `get_norm` applied to a scalar (0-d array), as happens in the
`biased_reward_shaping` branch of `NavToEdges._get_shaped_reward` where it is
called on `location[0]`.  `(x ** 2).sum(-1)` on a 0-d array is `x ** 2`. -/
noncomputable def get_norm0 (x : ℝ) : ℝ := Real.sqrt (x ^ 2)

/-- `GOLDEN_RATIO = (np.sqrt(5) + 1) / 2` in `env.py`. -/
noncomputable def goldenRatio : ℝ := (Real.sqrt 5 + 1) / 2

/-- `GOLDEN_ANGLE = 2 * np.pi * (2 - GOLDEN_RATIO)` in `env.py`. -/
noncomputable def goldenAngle : ℝ := 2 * Real.pi * (2 - goldenRatio)

/-- Python `int()` applied to a real: truncation toward zero. -/
noncomputable def pyInt (x : ℝ) : ℤ := if 0 ≤ x then ⌊x⌋ else ⌈x⌉

/-- The two concrete subclasses of `Navigation`. -/
inductive Variant
  | toCenter
  | toEdges
  deriving DecidableEq

/-- The error taxonomy of the spec: `InvalidConfiguration`, `InvalidAction`,
`InvalidState`, `InvalidInitialization` (all raised as plain exceptions in the
Python code). -/
inductive NavError
  | invalidConfiguration
  | invalidAction
  | invalidState
  | invalidInitialization
  deriving DecidableEq

/-- One `Navigation` instance: the construction-time configuration attributes
together with the mutable episode state, exactly the attributes the Python
object carries (`observation_space`/`action_space` are constant metadata and
are omitted). -/
structure Nav where
  variant : Variant
  is_eval : Bool
  goal_radius : ℝ
  world_radius : ℝ
  max_step_scale : ℝ
  sparsity : ℝ
  biased_reward_shaping : Bool
  world_scale : ℝ
  max_steps : ℤ
  num_steps : ℤ
  stop : Bool
  location : ℝ × ℝ
  prev_location : ℝ × ℝ

/-- The keyword arguments accepted by the constructors. -/
structure Config where
  is_eval : Bool
  goal_radius : ℝ
  world_radius : ℝ
  max_step_scale : ℝ
  sparsity : ℝ
  biased_reward_shaping : Bool

/-- The `world_scale` attribute each subclass `__init__` sets before calling
`super().__init__`: `world_radius` for `NavToCenter`, `goal_radius` for
`NavToEdges`. -/
def wScale (variant : Variant) (cfg : Config) : ℝ :=
  match variant with
  | .toCenter => cfg.world_radius
  | .toEdges => cfg.goal_radius

/-- Construction: `NavToCenter.__init__` / `NavToEdges.__init__` followed by
`Navigation.__init__`.  The Python constructors copy the parameters, compute
`max_steps = int(world_scale * max_step_scale)` and initialize the episode
state to zeros; they contain no validation and never raise, hence this always
returns `Except.ok`. -/
noncomputable def mkNavigation (variant : Variant) (cfg : Config) :
    Except NavError Nav :=
  Except.ok
    { variant := variant
      is_eval := cfg.is_eval
      goal_radius := cfg.goal_radius
      world_radius := cfg.world_radius
      max_step_scale := cfg.max_step_scale
      sparsity := cfg.sparsity
      biased_reward_shaping := cfg.biased_reward_shaping
      world_scale := wScale variant cfg
      max_steps := pyInt (wScale variant cfg * cfg.max_step_scale)
      num_steps := 0
      stop := false
      location := (0, 0)
      prev_location := (0, 0) }

/-- Modelled from the spec (§6 Construction), as the refinement counterpart
for claim C2 only: a constructor that fails with `InvalidConfiguration` when
`goalRadius <= 0`, `worldRadius <= 0` or `goalRadius >= worldRadius`, and
otherwise behaves like the code's constructor.  The code itself performs no
such validation. -/
noncomputable def specMkNavigation (variant : Variant) (cfg : Config) :
    Except NavError Nav :=
  if cfg.goal_radius ≤ 0 ∨ cfg.world_radius ≤ 0 ∨
      cfg.goal_radius ≥ cfg.world_radius then
    Except.error NavError.invalidConfiguration
  else
    mkNavigation variant cfg

/-- `_at_goal`: `NavToCenter` tests
`get_norm(location) <= goal_radius / world_scale`; `NavToEdges` tests
`get_norm(location) >= 1`. -/
noncomputable def at_goal (s : Nav) : Bool :=
  match s.variant with
  | .toCenter => decide (get_norm s.location ≤ s.goal_radius / s.world_scale)
  | .toEdges => decide (1 ≤ get_norm s.location)

/-- `_get_shaped_reward` of each variant. -/
noncomputable def get_shaped_reward (s : Nav) : ℝ :=
  match s.variant with
  | .toCenter => (get_norm s.prev_location - get_norm s.location) * s.world_scale
  | .toEdges =>
    if s.biased_reward_shaping then
      (get_norm0 s.location.1 - get_norm0 s.prev_location.1) * s.world_scale
    else
      (get_norm s.location - get_norm s.prev_location) * s.world_scale

/-- `Navigation._take_action`: asserts the action is a 2-component array
(raising otherwise), unit-clips it when its norm exceeds 1, divides by
`world_scale` and adds it to `location`. -/
noncomputable def take_action (s : Nav) (action : List ℝ) :
    Except NavError Nav :=
  match action with
  | [ax, ay] =>
    let act_norm := get_norm (ax, ay)
    let a : ℝ × ℝ := if 1 < act_norm then (ax / act_norm, ay / act_norm)
      else (ax, ay)
    let b : ℝ × ℝ := (a.1 / s.world_scale, a.2 / s.world_scale)
    Except.ok { s with location := (s.location.1 + b.1, s.location.2 + b.2) }
  | _ => Except.error NavError.invalidAction

/-- The tuple returned by `step`: observation, reward, done flag, and the
`info` dictionary (whose only key written by the core is `"at_goal"`). -/
structure StepResult where
  observation : ℝ × ℝ
  reward : ℝ
  done : Bool
  at_goal_info : Bool

/-- `Navigation._get_step_result` (its `action` argument is unused in the
live code, so it is dropped here): reads the observation, evaluates the goal
test, updates `stop`, and computes the reward per `is_eval`. -/
noncomputable def get_step_result (s : Nav) : Nav × StepResult :=
  let observation := s.location
  let atg := at_goal s
  let stop' :=
    if (decide (0 < s.num_steps) && atg) || decide (s.max_steps < s.num_steps)
    then true else s.stop
  let reward : ℝ :=
    if s.is_eval then (if atg then 1 else 0)
    else 0 + get_shaped_reward s / s.sparsity + (if stop' && atg then 1 else 0)
  ({ s with stop := stop' },
   { observation := observation, reward := reward, done := stop',
     at_goal_info := atg })

/-- `Navigation.step`: raises `InvalidState` when `stop` is already true;
otherwise increments `num_steps`, snapshots `prev_location`, applies the
action and returns the step result.  The first component of the returned pair
is the state of the object after the call, including the mutations that
survive when `_take_action` raises mid-way. -/
noncomputable def step (s : Nav) (action : List ℝ) :
    Nav × Except NavError StepResult :=
  if s.stop then (s, Except.error NavError.invalidState)
  else
    let s1 := { s with num_steps := s.num_steps + 1, prev_location := s.location }
    match take_action s1 action with
    | Except.error e => (s1, Except.error e)
    | Except.ok s2 =>
      let r := get_step_result s2
      (r.1, Except.ok r.2)

/-- `_reset_location` of both variants: draw a 2-d standard-normal vector `u`
and a uniform draw `t` (the bounds of the uniform differ per variant and are
stated as hypotheses where needed), set
`location = sqrt(t) * u / norm(u)` and copy it into `prev_location`. -/
noncomputable def reset_location (s : Nav) (u : ℝ × ℝ) (t : ℝ) : Nav :=
  let n := Real.sqrt (u.1 ^ 2 + u.2 ^ 2)
  let radius := Real.sqrt t
  let loc : ℝ × ℝ := (radius * u.1 / n, radius * u.2 / n)
  { s with location := loc, prev_location := loc }

/-- `Navigation.reset`: `_reset_location()`, then `stop = False`,
`num_steps = 0`, returning the observation. -/
noncomputable def reset (s : Nav) (u : ℝ × ℝ) (t : ℝ) : Nav × (ℝ × ℝ) :=
  let s1 := reset_location s u t
  let s2 := { s1 with stop := false, num_steps := 0 }
  (s2, s2.location)

/-- `fib_disc_init` of each variant.  Note the order of operations in the
source: the radius is computed, then `self._at_goal()` is tested on the
*current* (pre-call) location, and only afterwards is `self.location`
assigned the new placement. -/
noncomputable def fib_disc_init (s : Nav) (i n : ℤ) :
    Nav × Except NavError (ℝ × ℝ) :=
  match s.variant with
  | .toCenter =>
    let theta := (i : ℝ) * goldenAngle
    let g_rad := s.goal_radius / s.world_radius
    let lo : ℤ := ⌈(n : ℝ) * g_rad ^ 2⌉
    let hi : ℤ := ⌈(n : ℝ) / (1 - g_rad ^ 2)⌉
    let r := Real.sqrt (((i : ℝ) + (lo : ℝ)) / (hi : ℝ))
    if at_goal s then (s, Except.error NavError.invalidInitialization)
    else
      let s' := { s with location := (r * Real.cos theta, r * Real.sin theta) }
      (s', Except.ok s'.location)
  | .toEdges =>
    let theta := (i : ℝ) * goldenAngle
    let r := Real.sqrt ((i : ℝ) / (n : ℝ)) * s.world_radius / s.world_scale
    if at_goal s then (s, Except.error NavError.invalidInitialization)
    else
      let s' := { s with location := (r * Real.cos theta, r * Real.sin theta) }
      (s', Except.ok s'.location)

/-- Iterated `step`, keeping only the object state: models a caller looping
`env.step(a)` over a list of actions. -/
noncomputable def runEpisode (s : Nav) : List (List ℝ) → Nav
  | [] => s
  | a :: rest => runEpisode (step s a).1 rest

/-! ## Concrete instances used by counterexamples and witnesses -/

/-- A malformed configuration (`goal_radius = -1`). -/
noncomputable def badConfig : Config :=
  { is_eval := false, goal_radius := -1, world_radius := 1,
    max_step_scale := 1, sparsity := 1, biased_reward_shaping := false }

/-- A small `NavToCenter` instance (`goal_radius = 1`, `world_radius = 4`)
mid-episode at location `(1, 0)`. -/
noncomputable def wEnv : Nav :=
  { variant := .toCenter, is_eval := true, goal_radius := 1, world_radius := 4,
    max_step_scale := 1, sparsity := 1, biased_reward_shaping := false,
    world_scale := 4, max_steps := 1, num_steps := 0, stop := false,
    location := (1, 0), prev_location := (1, 0) }

/-- A `NavToCenter` instance with `goal_radius = 1`, `world_radius = 2`
(normalized goal radius `1/2`) at location `(1, 0)`. -/
noncomputable def annulusEnv : Nav :=
  { variant := .toCenter, is_eval := true, goal_radius := 1, world_radius := 2,
    max_step_scale := 1, sparsity := 1, biased_reward_shaping := false,
    world_scale := 2, max_steps := 2, num_steps := 0, stop := false,
    location := (1, 0), prev_location := (1, 0) }

/-- A `NavToEdges` instance (`goal_radius = 2`, `world_radius = 4`) at the
origin. -/
noncomputable def edgesEnv : Nav :=
  { variant := .toEdges, is_eval := false, goal_radius := 2, world_radius := 4,
    max_step_scale := 1, sparsity := 1, biased_reward_shaping := false,
    world_scale := 2, max_steps := 2, num_steps := 0, stop := false,
    location := (0, 0), prev_location := (0, 0) }

/-! ## Helper lemmas -/

/-- Norm of a point in polar form. -/
lemma get_norm_polar (r θ : ℝ) :
    get_norm (r * Real.cos θ, r * Real.sin θ) = |r| := by
  unfold get_norm
  have h : (r * Real.cos θ) ^ 2 + (r * Real.sin θ) ^ 2 = r ^ 2 := by
    linear_combination r ^ 2 * Real.sin_sq_add_cos_sq θ
  rw [h, Real.sqrt_sq_eq_abs]

/-- Norm of a point on the x-axis. -/
lemma get_norm_x (x : ℝ) : get_norm (x, 0) = |x| := by
  simp [get_norm, Real.sqrt_sq_eq_abs]

/-- Norm scales by `|k|`. -/
lemma get_norm_smul (k x y : ℝ) :
    get_norm (k * x, k * y) = |k| * get_norm (x, y) := by
  unfold get_norm
  rw [show (k * x) ^ 2 + (k * y) ^ 2 = k ^ 2 * (x ^ 2 + y ^ 2) by ring,
    Real.sqrt_mul (sq_nonneg k), Real.sqrt_sq_eq_abs]

/-- `_at_goal` only reads `variant`, `location`, `goal_radius`, `world_scale`. -/
lemma at_goal_ext (s s' : Nav) (hv : s.variant = s'.variant)
    (hl : s.location = s'.location) (hg : s.goal_radius = s'.goal_radius)
    (hw : s.world_scale = s'.world_scale) : at_goal s = at_goal s' := by
  unfold at_goal
  rw [hv, hl, hg, hw]

/-- `_at_goal` ignores the `stop` flag. -/
lemma at_goal_set_stop (s : Nav) (b : Bool) :
    at_goal { s with stop := b } = at_goal s :=
  at_goal_ext _ _ rfl rfl rfl rfl

/-- `NavToCenter._at_goal` unfolded. -/
lemma at_goal_toCenter (s : Nav) (hv : s.variant = Variant.toCenter) :
    at_goal s = decide (get_norm s.location ≤ s.goal_radius / s.world_scale) := by
  unfold at_goal
  rw [hv]

/-- `NavToEdges._at_goal` unfolded. -/
lemma at_goal_toEdges (s : Nav) (hv : s.variant = Variant.toEdges) :
    at_goal s = decide (1 ≤ get_norm s.location) := by
  unfold at_goal
  rw [hv]

/-- `_get_shaped_reward` only reads `variant`, the two locations,
`world_scale` and the bias flag. -/
lemma get_shaped_reward_ext (s s' : Nav) (hv : s.variant = s'.variant)
    (hl : s.location = s'.location) (hp : s.prev_location = s'.prev_location)
    (hw : s.world_scale = s'.world_scale)
    (hb : s.biased_reward_shaping = s'.biased_reward_shaping) :
    get_shaped_reward s = get_shaped_reward s' := by
  unfold get_shaped_reward
  rw [hv, hl, hp, hw, hb]

/-- The `done` flag returned by `_get_step_result` is the updated `stop`. -/
lemma gsr_done (s : Nav) :
    (get_step_result s).2.done = ((get_step_result s).1).stop := rfl

/-- The `info["at_goal"]` entry returned by `_get_step_result` is the raw
goal-test value. -/
lemma gsr_info (s : Nav) :
    (get_step_result s).2.at_goal_info = at_goal s := rfl

/-- The reward returned by `_get_step_result`. -/
lemma gsr_reward (s : Nav) :
    (get_step_result s).2.reward =
      (if s.is_eval then (if at_goal s then (1:ℝ) else 0)
       else 0 + get_shaped_reward s / s.sparsity +
         (if ((get_step_result s).1).stop && at_goal s then (1:ℝ) else 0)) :=
  rfl

/-- `_get_step_result` changes only `stop`, so the goal test on its state
agrees with the goal test on its input. -/
lemma at_goal_gsr (s : Nav) :
    at_goal ((get_step_result s).1) = at_goal s :=
  at_goal_ext _ _ rfl rfl rfl rfl

/-- Likewise for the shaped reward. -/
lemma gsr_shaped (s : Nav) :
    get_shaped_reward ((get_step_result s).1) = get_shaped_reward s :=
  get_shaped_reward_ext _ _ rfl rfl rfl rfl rfl

/-- A `step` call with a well-formed action from a running state unfolds to
`_get_step_result` applied to the advanced state (incremented counter,
snapshotted `prev_location`, displaced `location`). -/
lemma step_eq_of_not_stop (s : Nav) (ax ay : ℝ) (hstop : s.stop = false) :
    ∃ p : ℝ × ℝ,
      step s [ax, ay] =
        ((get_step_result
            { s with num_steps := s.num_steps + 1, prev_location := s.location, location := p }).1,
         Except.ok (get_step_result
            { s with num_steps := s.num_steps + 1, prev_location := s.location, location := p }).2) := by
  refine ⟨(s.location.1 +
      (if 1 < get_norm (ax, ay) then (ax / get_norm (ax, ay), ay / get_norm (ax, ay))
       else (ax, ay)).1 / s.world_scale,
    s.location.2 +
      (if 1 < get_norm (ax, ay) then (ax / get_norm (ax, ay), ay / get_norm (ax, ay))
       else (ax, ay)).2 / s.world_scale), ?_⟩
  unfold step
  rw [hstop]
  simp only [Bool.false_eq_true, if_false]
  rfl

/-- `_take_action` either rejects the action or only displaces `location`. -/
lemma take_action_cases (s : Nav) (a : List ℝ) :
    take_action s a = Except.error NavError.invalidAction ∨
    ∃ p : ℝ × ℝ, take_action s a = Except.ok { s with location := p } := by
  match a with
  | [] => exact Or.inl rfl
  | [x] => exact Or.inl rfl
  | [x, y] => exact Or.inr ⟨_, rfl⟩
  | x :: y :: z :: t => exact Or.inl rfl

/-- A `fib_disc_init` call from a state outside the goal region returns
`ok` with the new location as the observation. -/
lemma fib_disc_init_ok (s : Nav) (i n : ℤ) (hg : at_goal s = false) :
    fib_disc_init s i n =
      ((fib_disc_init s i n).1,
        Except.ok ((fib_disc_init s i n).1).location) := by
  obtain ⟨v, ie, gr, wr, mss, sp, br, ws, mst, ns, st, loc, ploc⟩ := s
  cases v <;> simp only [fib_disc_init, hg, Bool.false_eq_true, if_false]

/-- Characterisation of a successful `NavToCenter.fib_disc_init` call: the
result is `ok`, the configuration fields survive, and the placement's norm
is `sqrt((i + ceil(n*g^2)) / ceil(n/(1-g^2)))` with
`g = goal_radius / world_radius`. -/
lemma fib_disc_init_toCenter_chars (s : Nav) (i n : ℤ)
    (hv : s.variant = Variant.toCenter) (hg : at_goal s = false) :
    (fib_disc_init s i n).2 =
      Except.ok ((fib_disc_init s i n).1).location ∧
    ((fib_disc_init s i n).1).variant = Variant.toCenter ∧
    ((fib_disc_init s i n).1).goal_radius = s.goal_radius ∧
    ((fib_disc_init s i n).1).world_scale = s.world_scale ∧
    get_norm ((fib_disc_init s i n).1).location =
      Real.sqrt (((i : ℝ) +
        ((⌈(n : ℝ) * (s.goal_radius / s.world_radius) ^ 2⌉ : ℤ) : ℝ)) /
        ((⌈(n : ℝ) / (1 - (s.goal_radius / s.world_radius) ^ 2)⌉ : ℤ) : ℝ)) := by
  obtain ⟨v, ie, gr, wr, mss, sp, br, ws, mst, ns, st, loc, ploc⟩ := s
  cases v with
  | toEdges => simp at hv
  | toCenter =>
    simp only [fib_disc_init, hg, Bool.false_eq_true, if_false]
    refine ⟨?_, ?_, ?_, ?_, ?_⟩
    any_goals trivial
    rw [get_norm_polar, abs_of_nonneg (Real.sqrt_nonneg _)]

/-- The `stop` flag written by `_get_step_result`. -/
lemma gsr_stop (s : Nav) :
    ((get_step_result s).1).stop =
      (if (decide (0 < s.num_steps) && at_goal s) ||
          decide (s.max_steps < s.num_steps) then true else s.stop) := rfl

/-- Effect of one valid `step` from a running state whose post-action
position is outside the goal: the counter advances, the budget is
untouched, and the episode stops exactly when the counter exceeds the
budget. -/
lemma step_advance (s : Nav) (x y : ℝ) (hstop : s.stop = false)
    (hgoal : at_goal ((step s [x, y]).1) = false) :
    ((step s [x, y]).1).num_steps = s.num_steps + 1 ∧
    ((step s [x, y]).1).max_steps = s.max_steps ∧
    ((step s [x, y]).1).stop = decide (s.max_steps < s.num_steps + 1) := by
  obtain ⟨p, hstep⟩ := step_eq_of_not_stop s x y hstop
  rw [hstep] at hgoal ⊢
  rw [at_goal_gsr] at hgoal
  rw [hstop] at hgoal ⊢
  refine ⟨rfl, rfl, ?_⟩
  rw [gsr_stop]
  by_cases hmax : s.max_steps < s.num_steps + 1
  · simp [hgoal, decide_eq_true hmax]
  · simp [hgoal, decide_eq_false hmax]

/-- Episode-trace invariant: running a list of well-formed actions from a
fresh-enough state whose trajectory never meets the goal, the episode is
still running while the action count stays within the budget, and stops
(with the counter pinned at `max_steps + 1`) on the step that first
exceeds it. -/
lemma runEpisode_budget (acts : List (List ℝ)) : ∀ s : Nav,
    (∀ a ∈ acts, ∃ x y : ℝ, a = [x, y]) →
    s.stop = false →
    (∀ k : ℕ, k < acts.length →
      at_goal (runEpisode s (acts.take (k + 1))) = false) →
    ((s.num_steps + (acts.length : ℤ) ≤ s.max_steps →
      (runEpisode s acts).stop = false ∧
      (runEpisode s acts).num_steps = s.num_steps + (acts.length : ℤ)) ∧
     (s.num_steps + (acts.length : ℤ) = s.max_steps + 1 → 1 ≤ acts.length →
      (runEpisode s acts).stop = true ∧
      (runEpisode s acts).num_steps = s.max_steps + 1)) := by
  induction acts with
  | nil =>
    intro s hval hstop hgoal
    constructor
    · intro hle
      exact ⟨hstop, by simp [runEpisode]⟩
    · intro heq hlen
      simp at hlen
  | cons a rest ih =>
    intro s hval hstop hgoal
    obtain ⟨x, y, rfl⟩ := hval a (List.mem_cons_self a rest)
    have hg1 : at_goal ((step s [x, y]).1) = false := by
      have h := hgoal 0 (by simp)
      simpa [runEpisode] using h
    obtain ⟨hns, hms, hst⟩ := step_advance s x y hstop hg1
    have hval' : ∀ b ∈ rest, ∃ x y : ℝ, b = [x, y] :=
      fun b hb => hval b (List.mem_cons_of_mem _ hb)
    have hgoal' : ∀ k : ℕ, k < rest.length →
        at_goal (runEpisode (step s [x, y]).1 (rest.take (k + 1))) = false := by
      intro k hk
      have h := hgoal (k + 1) (by simpa using Nat.succ_lt_succ hk)
      simpa [runEpisode] using h
    have hrun : runEpisode s ([x, y] :: rest) =
        runEpisode (step s [x, y]).1 rest := rfl
    constructor
    · intro hle
      have hstop' : (step s [x, y]).1.stop = false := by
        rw [hst]
        have hmax : ¬(s.max_steps < s.num_steps + 1) := by
          push_cast [List.length_cons] at hle
          omega
        simp [decide_eq_false hmax]
      obtain ⟨ih1, -⟩ := ih (step s [x, y]).1 hval' hstop' hgoal'
      have h := ih1 (by rw [hns, hms]; push_cast [List.length_cons] at hle ⊢; linarith)
      refine ⟨by rw [hrun]; exact h.1, ?_⟩
      rw [hrun, h.2, hns]
      push_cast [List.length_cons]
      ring
    · intro heq hlen
      rcases Nat.eq_zero_or_pos rest.length with hr0 | hrpos
      · have hrest : rest = [] := List.length_eq_zero.mp hr0
        subst hrest
        have hmax : s.max_steps < s.num_steps + 1 := by
          push_cast [List.length_cons] at heq
          omega
        refine ⟨?_, ?_⟩
        · rw [hrun]
          show (step s [x, y]).1.stop = true
          rw [hst]
          simp [decide_eq_true hmax]
        · rw [hrun]
          show (step s [x, y]).1.num_steps = s.max_steps + 1
          rw [hns]
          push_cast [List.length_cons] at heq
          linarith
      · have hstop' : (step s [x, y]).1.stop = false := by
          rw [hst]
          have hmax : ¬(s.max_steps < s.num_steps + 1) := by
            push_cast [List.length_cons] at heq
            omega
          simp [decide_eq_false hmax]
        obtain ⟨-, ih2⟩ := ih (step s [x, y]).1 hval' hstop' hgoal'
        have h := ih2 (by rw [hns, hms]; push_cast [List.length_cons] at heq ⊢; linarith)
          (by exact hrpos)
        refine ⟨by rw [hrun]; exact h.1, ?_⟩
        rw [hrun, h.2, hms]

/-- `annulusEnv`'s current location `(1, 0)` lies outside its goal disc of
normalized radius `1/2`. -/
lemma annulusEnv_not_at_goal : at_goal annulusEnv = false := by
  rw [at_goal_toCenter annulusEnv rfl,
    show annulusEnv.location = ((1:ℝ), 0) from rfl, get_norm_x,
    decide_eq_false_iff_not, abs_of_nonneg (by norm_num : (0:ℝ) ≤ 1)]
  norm_num [annulusEnv]

/-! ## Claim theorems -/

/-- **C7** — Action clipping idempotence.  For an action `(ax, ay)` of norm
greater than 1 and any factor `k > 1`, applying the action, applying `k`
times the action, and applying the unit vector `a / norm(a)` all move
`location` by exactly `(a / norm(a)) / world_scale`; and for an action of
norm at most 1 the displacement is `a / world_scale`. -/
theorem claim_C7_clipping (s : Nav) (ax ay k : ℝ)
    (hn : 1 < get_norm (ax, ay)) (hk : 1 < k) :
    take_action s [k * ax, k * ay] = take_action s [ax, ay] ∧
    take_action s [ax / get_norm (ax, ay), ay / get_norm (ax, ay)] =
      take_action s [ax, ay] ∧
    take_action s [ax, ay] = Except.ok { s with location :=
      (s.location.1 + ax / get_norm (ax, ay) / s.world_scale,
       s.location.2 + ay / get_norm (ax, ay) / s.world_scale) } ∧
    (∀ bx cy : ℝ, get_norm (bx, cy) ≤ 1 →
      take_action s [bx, cy] = Except.ok { s with location :=
        (s.location.1 + bx / s.world_scale, s.location.2 + cy / s.world_scale) }) := by
  have hk0 : (0 : ℝ) < k := lt_trans one_pos hk
  have hn0 : (0 : ℝ) < get_norm (ax, ay) := lt_trans one_pos hn
  have h3 : take_action s [ax, ay] = Except.ok { s with location :=
      (s.location.1 + ax / get_norm (ax, ay) / s.world_scale,
       s.location.2 + ay / get_norm (ax, ay) / s.world_scale) } := by
    simp only [take_action]
    rw [if_pos hn]
  refine ⟨?_, ?_, h3, ?_⟩
  · have hkn : get_norm (k * ax, k * ay) = k * get_norm (ax, ay) := by
      rw [get_norm_smul, abs_of_pos hk0]
    have hkn1 : 1 < get_norm (k * ax, k * ay) := by
      rw [hkn]; nlinarith
    simp only [take_action]
    rw [if_pos hkn1, if_pos hn, hkn,
      mul_div_mul_left ax (get_norm (ax, ay)) (ne_of_gt hk0),
      mul_div_mul_left ay (get_norm (ax, ay)) (ne_of_gt hk0)]
  · have hun : get_norm (ax / get_norm (ax, ay), ay / get_norm (ax, ay)) = 1 := by
      rw [show ax / get_norm (ax, ay) = (get_norm (ax, ay))⁻¹ * ax by
            rw [inv_mul_eq_div],
          show ay / get_norm (ax, ay) = (get_norm (ax, ay))⁻¹ * ay by
            rw [inv_mul_eq_div],
          get_norm_smul, abs_of_pos (inv_pos.mpr hn0), inv_mul_cancel₀ (ne_of_gt hn0)]
    simp only [take_action]
    rw [if_neg (by rw [hun]; exact lt_irrefl 1), if_pos hn]
  · intro bx cy hb
    simp only [take_action]
    rw [if_neg (not_lt.mpr hb)]

/-- **C9** — `step` is not atomic on action-validation failure: called with
`stop == false` and a malformed action, it raises `InvalidAction`, but the
returned object state already has `num_steps` incremented and
`prev_location` overwritten with the current location, while `location` and
`stop` are unchanged. -/
theorem claim_C9_nonatomic (s : Nav) (l : List ℝ) (hstop : s.stop = false)
    (hbad : ∀ x y : ℝ, l ≠ [x, y]) :
    step s l =
      ({ s with num_steps := s.num_steps + 1, prev_location := s.location },
        Except.error NavError.invalidAction) := by
  have hta : ∀ s0 : Nav, take_action s0 l = Except.error NavError.invalidAction := by
    intro s0
    match l, hbad with
    | [], _ => rfl
    | [x], _ => rfl
    | [x, y], h => exact absurd rfl (h x y)
    | x :: y :: z :: t, _ => rfl
  unfold step
  rw [hstop]
  simp only [Bool.false_eq_true, if_false, hta]

/-- **C2 counterexample** — construction with `goal_radius = -1 <= 0` does
*not* fail: the code's constructor performs no validation and returns a
fresh instance, while the spec-modelled constructor would raise
`InvalidConfiguration` on the same arguments. -/
theorem claim_C2_counterexample :
    badConfig.goal_radius ≤ 0 ∧
    mkNavigation Variant.toCenter badConfig ≠
      Except.error NavError.invalidConfiguration ∧
    specMkNavigation Variant.toCenter badConfig =
      Except.error NavError.invalidConfiguration := by
  refine ⟨by norm_num [badConfig], by simp [mkNavigation], ?_⟩
  unfold specMkNavigation
  rw [if_pos]
  left
  norm_num [badConfig]

/-- **C2 amended** — construction never fails: `Navigation.__init__` and the
subclass constructors contain no parameter validation, so every variant and
every parameter assignment (including non-positive or inverted radii)
yields an instance. -/
theorem claim_C2_amended (variant : Variant) (cfg : Config) :
    ∃ nav : Nav, mkNavigation variant cfg = Except.ok nav :=
  ⟨_, rfl⟩

/-- **C3 counterexample** — `numpy`'s `uniform(low, high)` includes `low` in
its support, and `NavToCenter._at_goal` uses `<=`: the draw
`t = (goal_radius/world_scale)^2 = 1/4` (the lower endpoint of the
uniform's range, here with normalized goal radius `1/2`) together with
direction `(1, 0)` places the agent exactly on the goal boundary, where
`atGoal()` is *true* — refuting "every point the sampler can produce
satisfies `atGoal() == false`". -/
theorem claim_C3_counterexample :
    (annulusEnv.goal_radius / annulusEnv.world_scale) ^ 2 ≤ (1/4 : ℝ) ∧
    (1/4 : ℝ) < 1 ∧
    at_goal (reset_location annulusEnv (1, 0) (1/4)) = true := by
  have h14 : Real.sqrt (1/4 : ℝ) = 1/2 := by
    rw [show (1/4 : ℝ) = (1/2 : ℝ) ^ 2 by norm_num,
      Real.sqrt_sq (by norm_num : (0:ℝ) ≤ 1/2)]
  refine ⟨by norm_num [annulusEnv], by norm_num, ?_⟩
  rw [at_goal_toCenter (reset_location annulusEnv (1, 0) (1/4)) rfl]
  have hloc : (reset_location annulusEnv (1, 0) (1/4)).location =
      (Real.sqrt (1/4) * 1 / Real.sqrt ((1:ℝ) ^ 2 + (0:ℝ) ^ 2),
       Real.sqrt (1/4) * 0 / Real.sqrt ((1:ℝ) ^ 2 + (0:ℝ) ^ 2)) := rfl
  rw [h14, show (1:ℝ) ^ 2 + (0:ℝ) ^ 2 = 1 by norm_num, Real.sqrt_one] at hloc
  norm_num at hloc
  have hgr : (reset_location annulusEnv (1, 0) (1/4)).goal_radius = 1 := rfl
  have hws : (reset_location annulusEnv (1, 0) (1/4)).world_scale = 2 := rfl
  rw [hloc, hgr, hws, get_norm_x]
  simp only [decide_eq_true_eq]
  rw [abs_of_nonneg (by norm_num : (0:ℝ) ≤ 1/2)]

/-- **C3 amended** — the `NavToCenter` reset sampler leaves the goal disc
whenever the uniform draw is strictly above its lower endpoint: for any
direction vector `u ≠ 0` and any draw `t` with
`(goal_radius/world_scale)^2 < t < 1`, the sampled point satisfies
`atGoal() == false`; at the included lower endpoint `t = (g/ws)^2` the
agent lands exactly on the goal boundary and `atGoal()` is true. -/
theorem claim_C3_amended (s : Nav) (u : ℝ × ℝ) (t : ℝ)
    (hv : s.variant = Variant.toCenter) (hu : u ≠ (0, 0))
    (ht1 : (s.goal_radius / s.world_scale) ^ 2 < t) (ht2 : t < 1) :
    at_goal (reset_location s u t) = false := by
  have ht0 : 0 ≤ t := le_trans (sq_nonneg _) (le_of_lt ht1)
  have hsum : 0 < u.1 ^ 2 + u.2 ^ 2 := by
    rcases (show u.1 ≠ 0 ∨ u.2 ≠ 0 by
        by_contra h
        push_neg at h
        exact hu (Prod.ext h.1 h.2)) with h | h
    · nlinarith [sq_nonneg u.2, pow_two_pos_of_ne_zero h]
    · nlinarith [sq_nonneg u.1, pow_two_pos_of_ne_zero h]
  have h1 : Real.sqrt (u.1 ^ 2 + u.2 ^ 2) ^ 2 = u.1 ^ 2 + u.2 ^ 2 :=
    Real.sq_sqrt (le_of_lt hsum)
  have h2 : Real.sqrt t ^ 2 = t := Real.sq_sqrt ht0
  have hnu : Real.sqrt (u.1 ^ 2 + u.2 ^ 2) ≠ 0 :=
    ne_of_gt (Real.sqrt_pos.mpr hsum)
  have hnorm : get_norm (reset_location s u t).location = Real.sqrt t := by
    have hloc : (reset_location s u t).location =
        (Real.sqrt t * u.1 / Real.sqrt (u.1 ^ 2 + u.2 ^ 2),
         Real.sqrt t * u.2 / Real.sqrt (u.1 ^ 2 + u.2 ^ 2)) := rfl
    rw [hloc]
    unfold get_norm
    have hkey : (Real.sqrt t * u.1 / Real.sqrt (u.1 ^ 2 + u.2 ^ 2)) ^ 2 +
        (Real.sqrt t * u.2 / Real.sqrt (u.1 ^ 2 + u.2 ^ 2)) ^ 2 = t := by
      have hc : (Real.sqrt t * u.1 / Real.sqrt (u.1 ^ 2 + u.2 ^ 2)) ^ 2 +
          (Real.sqrt t * u.2 / Real.sqrt (u.1 ^ 2 + u.2 ^ 2)) ^ 2 =
          Real.sqrt t ^ 2 * ((u.1 ^ 2 + u.2 ^ 2) /
            Real.sqrt (u.1 ^ 2 + u.2 ^ 2) ^ 2) := by
        ring
      rw [hc, h1, div_self (ne_of_gt hsum), mul_one, h2]
    rw [hkey]
  rw [at_goal_toCenter (reset_location s u t) hv, hnorm]
  rw [decide_eq_false_iff_not]
  intro hle
  have hg0 : 0 ≤ s.goal_radius / s.world_scale :=
    le_trans (Real.sqrt_nonneg t) hle
  have hsq : Real.sqrt t * Real.sqrt t ≤
      (s.goal_radius / s.world_scale) * (s.goal_radius / s.world_scale) :=
    mul_le_mul hle hle (Real.sqrt_nonneg t) hg0
  nlinarith [hsq, h2, ht1]

/-- **C3 amended, witness** — a concrete application: `NavToCenter` with
normalized goal radius `1/2`, direction `(1, 0)`, draw `t = 1/2`. -/
theorem claim_C3_amended_witness :
    ((annulusEnv.goal_radius / annulusEnv.world_scale) ^ 2 < (1/2 : ℝ) ∧
      (1/2 : ℝ) < 1) ∧
    at_goal (reset_location annulusEnv (1, 0) (1/2)) = false :=
  ⟨⟨by norm_num [annulusEnv], by norm_num⟩,
    claim_C3_amended annulusEnv (1, 0) (1/2) rfl (by simp)
      (by norm_num [annulusEnv]) (by norm_num)⟩

/-- **C5** — reward rule of a successful `step`.  `info["at_goal"]` records
the raw goal test after the action; in evaluation mode the reward is
`1.0` iff the goal test holds; in training mode it is
`shapedReward() / sparsity` plus a `+1.0` bonus exactly when the episode
terminates on this step with the goal reached (and hence no bonus when it
terminates by exhausting the budget without the goal). -/
theorem claim_C5_reward (s : Nav) (ax ay : ℝ) (s' : Nav) (r : StepResult)
    (h : step s [ax, ay] = (s', Except.ok r)) :
    r.at_goal_info = at_goal s' ∧
    (s.is_eval = true → r.reward = (if at_goal s' then (1:ℝ) else 0)) ∧
    (s.is_eval = false →
      r.reward = get_shaped_reward s' / s.sparsity +
        (if r.done && at_goal s' then (1:ℝ) else 0)) := by
  cases hstop : s.stop with
  | true =>
    unfold step at h
    rw [hstop] at h
    simp at h
  | false =>
    obtain ⟨p, hstep⟩ := step_eq_of_not_stop s ax ay hstop
    rw [hstep] at h
    rw [Prod.mk.injEq] at h
    obtain ⟨h1, h2⟩ := h
    injection h2 with h2
    subst h1
    subst h2
    refine ⟨?_, ?_, ?_⟩
    · rw [gsr_info, at_goal_gsr]
    · intro hev
      rw [gsr_reward, at_goal_gsr]
      simp only [hev, if_true]
    · intro hev
      rw [gsr_reward, gsr_done, at_goal_gsr, gsr_shaped]
      simp only [hev, Bool.false_eq_true, if_false, zero_add]

/-- **C5 witness** — a concrete successful evaluation-mode step. -/
theorem claim_C5_witness :
    wEnv.stop = false ∧
    ∃ s' r, step wEnv [(1:ℝ), 0] = (s', Except.ok r) ∧
      r.at_goal_info = at_goal s' ∧
      (wEnv.is_eval = true → r.reward = (if at_goal s' then (1:ℝ) else 0)) := by
  obtain ⟨p, hstep⟩ := step_eq_of_not_stop wEnv 1 0 rfl
  obtain ⟨hinfo, hev, -⟩ := claim_C5_reward wEnv 1 0 _ _ hstep
  exact ⟨rfl, _, _, hstep, hinfo, hev⟩

/-- **C6** — termination-flag protocol: the `done` value returned by a
successful `step` is the state's `stop` flag; a `step` on a stopped
instance fails with `InvalidState` and leaves the state unchanged (so
`stop` stays true); `fib_disc_init` never changes `stop`; and `reset`
(alone) clears it. -/
theorem claim_C6_stop_protocol :
    (∀ (s : Nav) (a : List ℝ) (s' : Nav) (r : StepResult),
      step s a = (s', Except.ok r) → r.done = s'.stop) ∧
    (∀ (s : Nav) (a : List ℝ), s.stop = true →
      step s a = (s, Except.error NavError.invalidState)) ∧
    (∀ (s : Nav) (a : List ℝ), s.stop = true → ((step s a).1).stop = true) ∧
    (∀ (s : Nav) (i n : ℤ), ((fib_disc_init s i n).1).stop = s.stop) ∧
    (∀ (s : Nav) (u : ℝ × ℝ) (t : ℝ), ((reset s u t).1).stop = false) := by
  have h2 : ∀ (s : Nav) (a : List ℝ), s.stop = true →
      step s a = (s, Except.error NavError.invalidState) := by
    intro s a h
    unfold step
    rw [h]
    simp
  refine ⟨?_, h2, ?_, ?_, ?_⟩
  · intro s a s' r h
    cases hstop : s.stop with
    | true =>
      rw [h2 s a hstop] at h
      simp at h
    | false =>
      unfold step at h
      rw [hstop] at h
      simp only [Bool.false_eq_true, if_false] at h
      rcases take_action_cases
          { s with num_steps := s.num_steps + 1, stop := false, prev_location := s.location } a
        with hc | ⟨p, hc⟩
      · rw [hc] at h
        simp at h
      · rw [hc] at h
        simp only [Prod.mk.injEq, Except.ok.injEq] at h
        obtain ⟨hA, hB⟩ := h
        subst hA
        subst hB
        exact gsr_done _
  · intro s a h
    rw [h2 s a h]
    exact h
  · intro s i n
    obtain ⟨v, ie, gr, wr, mss, sp, br, ws, mst, ns, st, loc, ploc⟩ := s
    cases v <;> simp only [fib_disc_init] <;> split <;> rfl
  · intro s u t
    rfl

/-- **C6 witness** — a stopped instance rejects the next `step` without
mutation. -/
theorem claim_C6_witness :
    ({ wEnv with stop := true } : Nav).stop = true ∧
    step { wEnv with stop := true } [(1:ℝ), 0] =
      ({ wEnv with stop := true }, Except.error NavError.invalidState) :=
  ⟨rfl, claim_C6_stop_protocol.2.1 { wEnv with stop := true } [(1:ℝ), 0] rfl⟩

/-- **C10** — frame property of a successful `fib_disc_init`: only
`location` is written; `prev_location`, `num_steps`, `stop` and every
construction-time configuration field are unchanged, and the returned
observation is the new location (while `prev_location` keeps its old,
possibly different, value). -/
theorem claim_C10_frame (s : Nav) (i n : ℤ) (s' : Nav) (obs : ℝ × ℝ)
    (h : fib_disc_init s i n = (s', Except.ok obs)) :
    s'.variant = s.variant ∧ s'.is_eval = s.is_eval ∧
    s'.goal_radius = s.goal_radius ∧ s'.world_radius = s.world_radius ∧
    s'.max_step_scale = s.max_step_scale ∧ s'.sparsity = s.sparsity ∧
    s'.biased_reward_shaping = s.biased_reward_shaping ∧
    s'.world_scale = s.world_scale ∧ s'.max_steps = s.max_steps ∧
    s'.num_steps = s.num_steps ∧ s'.stop = s.stop ∧
    s'.prev_location = s.prev_location ∧ obs = s'.location := by
  obtain ⟨v, ie, gr, wr, mss, sp, br, ws, mst, ns, st, loc, ploc⟩ := s
  cases v with
  | toCenter =>
    simp only [fib_disc_init] at h
    split at h
    · simp at h
    · simp only [Prod.mk.injEq, Except.ok.injEq] at h
      obtain ⟨hA, hB⟩ := h
      subst hA
      subst hB
      exact ⟨rfl, rfl, rfl, rfl, rfl, rfl, rfl, rfl, rfl, rfl, rfl, rfl, rfl⟩
  | toEdges =>
    simp only [fib_disc_init] at h
    split at h
    · simp at h
    · simp only [Prod.mk.injEq, Except.ok.injEq] at h
      obtain ⟨hA, hB⟩ := h
      subst hA
      subst hB
      exact ⟨rfl, rfl, rfl, rfl, rfl, rfl, rfl, rfl, rfl, rfl, rfl, rfl, rfl⟩

/-- **C1 (code-bug exhibit)** — `fib_disc_init` tests `_at_goal()` on the
*pre-call* location, not on the computed placement: for
`NavToCenter(goal_radius=1, world_radius=2)` currently at `(1, 0)` (outside
the goal), `fib_disc_init(0, 100)` computes the radius
`sqrt(25/134) < 1/2`, i.e. a placement *inside* the goal disc, yet does not
raise `InvalidInitialization`; it assigns that placement, after which
`_at_goal()` is true — contradicting the claimed "fails iff the computed
placement already satisfies atGoal()". -/
theorem claim_C1_bug_exhibit :
    at_goal annulusEnv = false ∧
    (fib_disc_init annulusEnv 0 100).2 =
      Except.ok ((fib_disc_init annulusEnv 0 100).1).location ∧
    at_goal ((fib_disc_init annulusEnv 0 100).1) = true := by
  obtain ⟨hok, hv', hgr', hws', hnorm⟩ :=
    fib_disc_init_toCenter_chars annulusEnv 0 100 rfl annulusEnv_not_at_goal
  refine ⟨annulusEnv_not_at_goal, hok, ?_⟩
  have hA : (⌈((100:ℤ) : ℝ) *
      (annulusEnv.goal_radius / annulusEnv.world_radius) ^ 2⌉ : ℤ) = 25 := by
    rw [show ((100:ℤ) : ℝ) *
        (annulusEnv.goal_radius / annulusEnv.world_radius) ^ 2 = 25 by
      norm_num [annulusEnv]]
    norm_num
  have hB : (⌈((100:ℤ) : ℝ) /
      (1 - (annulusEnv.goal_radius / annulusEnv.world_radius) ^ 2)⌉ : ℤ) = 134 := by
    rw [show ((100:ℤ) : ℝ) /
        (1 - (annulusEnv.goal_radius / annulusEnv.world_radius) ^ 2) = 400/3 by
      norm_num [annulusEnv]]
    rw [Int.ceil_eq_iff]
    norm_num
  rw [at_goal_toCenter _ hv', hnorm, hgr', hws', decide_eq_true_eq, hA, hB,
    show annulusEnv.goal_radius / annulusEnv.world_scale = (1/2 : ℝ) by
      norm_num [annulusEnv],
    show (((0:ℤ) : ℝ) + ((25:ℤ) : ℝ)) / ((134:ℤ) : ℝ) = (25/134 : ℝ) by
      push_cast
      norm_num,
    show (1/2 : ℝ) = Real.sqrt ((1/2) ^ 2) from
      (Real.sqrt_sq (by norm_num)).symm]
  exact Real.sqrt_le_sqrt (by norm_num)

/-- **C8 counterexample** — with `n = 3` and `g = 1/2`
(`goal_radius = 1`, `world_radius = 2`): `lo = ceil(3*g^2) = 1`,
`hi = ceil(3/(1-g^2)) = 4`, and for the in-range sweep index `i = 1` the
call `fib_disc_init(1, hi)` succeeds but the resulting radius is
`sqrt((1 + ceil(hi*g^2)) / ceil(hi/(1-g^2))) = sqrt(1/3)`, *not* the
claimed `sqrt((i + lo)/hi) = sqrt(1/2)`: the code re-derives its bracket
from its second argument, which the sweep passes as `hi`, not `n`. -/
theorem claim_C8_counterexample :
    (⌈(3:ℝ) * (annulusEnv.goal_radius / annulusEnv.world_radius) ^ 2⌉ : ℤ) = 1 ∧
    (⌈(3:ℝ) / (1 - (annulusEnv.goal_radius / annulusEnv.world_radius) ^ 2)⌉ : ℤ) = 4 ∧
    (fib_disc_init annulusEnv 1 4).2 =
      Except.ok ((fib_disc_init annulusEnv 1 4).1).location ∧
    get_norm ((fib_disc_init annulusEnv 1 4).1).location ≠
      Real.sqrt ((((1:ℤ) : ℝ) + ((1:ℤ) : ℝ)) / ((4:ℤ) : ℝ)) := by
  obtain ⟨hok, -, -, -, hnorm⟩ :=
    fib_disc_init_toCenter_chars annulusEnv 1 4 rfl annulusEnv_not_at_goal
  refine ⟨?_, ?_, hok, ?_⟩
  · rw [show (3:ℝ) * (annulusEnv.goal_radius / annulusEnv.world_radius) ^ 2
        = 3/4 by norm_num [annulusEnv]]
    rw [Int.ceil_eq_iff]
    norm_num
  · rw [show (3:ℝ) / (1 - (annulusEnv.goal_radius / annulusEnv.world_radius) ^ 2)
        = 4 by norm_num [annulusEnv]]
    norm_num
  · have hA : (⌈((4:ℤ) : ℝ) *
        (annulusEnv.goal_radius / annulusEnv.world_radius) ^ 2⌉ : ℤ) = 1 := by
      rw [show ((4:ℤ) : ℝ) *
          (annulusEnv.goal_radius / annulusEnv.world_radius) ^ 2 = 1 by
        norm_num [annulusEnv]]
      norm_num
    have hB : (⌈((4:ℤ) : ℝ) /
        (1 - (annulusEnv.goal_radius / annulusEnv.world_radius) ^ 2)⌉ : ℤ) = 6 := by
      rw [show ((4:ℤ) : ℝ) /
          (1 - (annulusEnv.goal_radius / annulusEnv.world_radius) ^ 2) = 16/3 by
        norm_num [annulusEnv]]
      rw [Int.ceil_eq_iff]
      norm_num
    rw [hnorm, hA, hB,
      show (((1:ℤ) : ℝ) + ((1:ℤ) : ℝ)) / ((6:ℤ) : ℝ) = (1/3 : ℝ) by
        push_cast
        norm_num,
      show (((1:ℤ) : ℝ) + ((1:ℤ) : ℝ)) / ((4:ℤ) : ℝ) = (1/2 : ℝ) by
        push_cast
        norm_num]
    exact ne_of_lt (Real.sqrt_lt_sqrt (by norm_num) (by norm_num))

/-- **C8 amended** — deterministic sweep coverage as the code implements it:
from any `NavToCenter` state outside the goal (the raise inspects the
pre-call location only), `fibDiscInit(i, hi)` with `lo <= i <= j < hi`
never raises, the resulting radius is
`sqrt((i + lo') / hi')` where `lo' = ceil(hi*g^2)` and
`hi' = ceil(hi/(1-g^2))` are re-derived from the argument `hi`, and the
radii are non-decreasing in the index. -/
theorem claim_C8_amended (s : Nav) (n i j lo hi lo' hi' : ℤ)
    (hv : s.variant = Variant.toCenter)
    (hg0 : 0 < s.goal_radius) (hgw : s.goal_radius < s.world_radius)
    (hn : 1 ≤ n) (hgoal : at_goal s = false)
    (hlo : lo = ⌈(n : ℝ) * (s.goal_radius / s.world_radius) ^ 2⌉)
    (hhi : hi = ⌈(n : ℝ) / (1 - (s.goal_radius / s.world_radius) ^ 2)⌉)
    (hlo' : lo' = ⌈(hi : ℝ) * (s.goal_radius / s.world_radius) ^ 2⌉)
    (hhi' : hi' = ⌈(hi : ℝ) / (1 - (s.goal_radius / s.world_radius) ^ 2)⌉)
    (hik : lo ≤ i) (hij : i ≤ j) (hjhi : j < hi) :
    (fib_disc_init s i hi).2 =
      Except.ok ((fib_disc_init s i hi).1).location ∧
    (fib_disc_init s j hi).2 =
      Except.ok ((fib_disc_init s j hi).1).location ∧
    get_norm ((fib_disc_init s i hi).1).location =
      Real.sqrt (((i : ℝ) + (lo' : ℝ)) / (hi' : ℝ)) ∧
    get_norm ((fib_disc_init s i hi).1).location ≤
      get_norm ((fib_disc_init s j hi).1).location := by
  obtain ⟨hoki, -, -, -, hni⟩ := fib_disc_init_toCenter_chars s i hi hv hgoal
  obtain ⟨hokj, -, -, -, hnj⟩ := fib_disc_init_toCenter_chars s j hi hv hgoal
  have hwr : 0 < s.world_radius := lt_trans hg0 hgw
  have hgpos : 0 < s.goal_radius / s.world_radius := div_pos hg0 hwr
  have hglt : s.goal_radius / s.world_radius < 1 := (div_lt_one hwr).mpr hgw
  have h1g : 0 < 1 - (s.goal_radius / s.world_radius) ^ 2 := by nlinarith
  have hipos : 0 < hi := by
    rw [hhi]
    refine Int.ceil_pos.mpr (div_pos ?_ h1g)
    exact_mod_cast lt_of_lt_of_le Int.zero_lt_one hn
  have hi'pos : (0 : ℝ) < (hi' : ℝ) := by
    have : 0 < hi' := by
      rw [hhi']
      refine Int.ceil_pos.mpr (div_pos ?_ h1g)
      exact_mod_cast hipos
    exact_mod_cast this
  refine ⟨hoki, hokj, ?_, ?_⟩
  · rw [hni, hlo', hhi']
  · rw [hni, hnj]
    refine Real.sqrt_le_sqrt ?_
    rw [← hlo', ← hhi']
    refine (div_le_div_right hi'pos).mpr ?_
    have : (i : ℝ) ≤ (j : ℝ) := by exact_mod_cast hij
    linarith

/-- **C8 amended, witness** — the concrete sweep of the counterexample
setting: indices `1 <= 2 < 4` with `n = 3`. -/
theorem claim_C8_amended_witness :
    at_goal annulusEnv = false ∧
    get_norm ((fib_disc_init annulusEnv 1 4).1).location ≤
      get_norm ((fib_disc_init annulusEnv 2 4).1).location := by
  have hlo : (1:ℤ) = ⌈((3:ℤ) : ℝ) *
      (annulusEnv.goal_radius / annulusEnv.world_radius) ^ 2⌉ := by
    rw [show ((3:ℤ) : ℝ) *
        (annulusEnv.goal_radius / annulusEnv.world_radius) ^ 2 = 3/4 by
      norm_num [annulusEnv]]
    rw [eq_comm, Int.ceil_eq_iff]
    norm_num
  have hhi : (4:ℤ) = ⌈((3:ℤ) : ℝ) /
      (1 - (annulusEnv.goal_radius / annulusEnv.world_radius) ^ 2)⌉ := by
    rw [show ((3:ℤ) : ℝ) /
        (1 - (annulusEnv.goal_radius / annulusEnv.world_radius) ^ 2) = 4 by
      norm_num [annulusEnv]]
    norm_num
  have hlo' : (1:ℤ) = ⌈((4:ℤ) : ℝ) *
      (annulusEnv.goal_radius / annulusEnv.world_radius) ^ 2⌉ := by
    rw [show ((4:ℤ) : ℝ) *
        (annulusEnv.goal_radius / annulusEnv.world_radius) ^ 2 = 1 by
      norm_num [annulusEnv]]
    norm_num
  have hhi' : (6:ℤ) = ⌈((4:ℤ) : ℝ) /
      (1 - (annulusEnv.goal_radius / annulusEnv.world_radius) ^ 2)⌉ := by
    rw [show ((4:ℤ) : ℝ) /
        (1 - (annulusEnv.goal_radius / annulusEnv.world_radius) ^ 2) = 16/3 by
      norm_num [annulusEnv]]
    rw [eq_comm, Int.ceil_eq_iff]
    norm_num
  have h := claim_C8_amended annulusEnv 3 1 2 1 4 1 6 rfl
    (by norm_num [annulusEnv]) (by norm_num [annulusEnv]) (by norm_num)
    annulusEnv_not_at_goal hlo hhi hlo' hhi'
    (le_refl 1) (by norm_num) (by norm_num)
  exact ⟨annulusEnv_not_at_goal, h.2.2.2⟩

/-- **C10 witness** — a concrete successful `NavToEdges.fib_disc_init`. -/
theorem claim_C10_witness :
    ∃ s' obs, fib_disc_init edgesEnv 0 4 = (s', Except.ok obs) ∧
      s'.num_steps = edgesEnv.num_steps ∧ s'.stop = edgesEnv.stop ∧
      s'.prev_location = edgesEnv.prev_location := by
  have hg : at_goal edgesEnv = false := by
    rw [at_goal_toEdges edgesEnv rfl,
      show edgesEnv.location = ((0:ℝ), 0) from rfl, get_norm_x,
      decide_eq_false_iff_not, abs_of_nonneg (le_refl (0:ℝ))]
    norm_num
  have heq := fib_disc_init_ok edgesEnv 0 4 hg
  obtain ⟨-, -, -, -, -, -, -, -, -, hns, hst, hpl, -⟩ :=
    claim_C10_frame edgesEnv 0 4 _ _ heq
  exact ⟨_, _, heq, hns, hst, hpl⟩

/-- **C7 witness** — action `(3, 4)` (norm 5), factor `k = 2`. -/
theorem claim_C7_witness :
    1 < get_norm ((3:ℝ), 4) ∧ 1 < (2:ℝ) ∧
    take_action wEnv [(2:ℝ) * 3, 2 * 4] = take_action wEnv [(3:ℝ), 4] := by
  have h5 : get_norm ((3:ℝ), 4) = 5 := by
    unfold get_norm
    rw [show (3:ℝ) ^ 2 + (4:ℝ) ^ 2 = 25 by norm_num,
      show (25:ℝ) = 5 ^ 2 by norm_num, Real.sqrt_sq (by norm_num : (0:ℝ) ≤ 5)]
  exact ⟨by rw [h5]; norm_num, by norm_num,
    (claim_C7_clipping wEnv 3 4 2 (by rw [h5]; norm_num) (by norm_num)).1⟩

/-- **C9 witness** — a malformed (empty) action on a running instance. -/
theorem claim_C9_witness :
    wEnv.stop = false ∧
    step wEnv [] =
      ({ wEnv with num_steps := wEnv.num_steps + 1, prev_location := wEnv.location },
        Except.error NavError.invalidAction) :=
  ⟨rfl, claim_C9_nonatomic wEnv [] rfl
    (fun x y => (List.cons_ne_nil x [y]).symm)⟩

/-- **C4** — step budget.  At construction `max_steps` is
`floor(world_scale * max_step_scale)` (for the nonnegative products the
positive-parameter configurations produce); no lifecycle operation ever
changes `max_steps`; and an episode (fresh counter, running, `atGoal()`
false after every step) has `done = false` on every step while
`num_steps <= max_steps` and first returns `done = true` on the step where
`num_steps` reaches exactly `max_steps + 1`. -/
theorem claim_C4_step_budget :
    (∀ (variant : Variant) (cfg : Config) (nav : Nav),
      0 ≤ wScale variant cfg * cfg.max_step_scale →
      mkNavigation variant cfg = Except.ok nav →
      nav.max_steps = ⌊wScale variant cfg * cfg.max_step_scale⌋) ∧
    (∀ (s : Nav) (a : List ℝ), ((step s a).1).max_steps = s.max_steps) ∧
    (∀ (s : Nav) (u : ℝ × ℝ) (t : ℝ),
      ((reset s u t).1).max_steps = s.max_steps) ∧
    (∀ (s : Nav) (i n : ℤ),
      ((fib_disc_init s i n).1).max_steps = s.max_steps) ∧
    (∀ (s : Nav) (acts : List (List ℝ)),
      (∀ a ∈ acts, ∃ x y : ℝ, a = [x, y]) →
      s.stop = false → s.num_steps = 0 → 0 ≤ s.max_steps →
      (∀ k : ℕ, k < acts.length →
        at_goal (runEpisode s (acts.take (k + 1))) = false) →
      (((acts.length : ℤ) ≤ s.max_steps →
        (runEpisode s acts).stop = false ∧
        (runEpisode s acts).num_steps = (acts.length : ℤ)) ∧
       ((acts.length : ℤ) = s.max_steps + 1 →
        (runEpisode s acts).stop = true ∧
        (runEpisode s acts).num_steps = s.max_steps + 1))) := by
  refine ⟨?_, ?_, ?_, ?_, ?_⟩
  · intro variant cfg nav hpos h
    simp only [mkNavigation, Except.ok.injEq] at h
    subst h
    show pyInt (wScale variant cfg * cfg.max_step_scale) = _
    unfold pyInt
    rw [if_pos hpos]
  · intro s a
    unfold step
    cases hstop : s.stop with
    | true => rfl
    | false =>
      simp only [Bool.false_eq_true, if_false]
      rcases take_action_cases
          { s with num_steps := s.num_steps + 1, stop := false, prev_location := s.location } a
        with hc | ⟨p, hc⟩ <;> rw [hc] <;> rfl
  · intro s u t
    rfl
  · intro s i n
    obtain ⟨v, ie, gr, wr, mss, sp, br, ws, mst, ns, st, loc, ploc⟩ := s
    cases v <;> simp only [fib_disc_init] <;> split <;> rfl
  · intro s acts hval hstop hzero hmax hgoal
    obtain ⟨b1, b2⟩ := runEpisode_budget acts s hval hstop hgoal
    constructor
    · intro hle
      have h := b1 (by rw [hzero, zero_add]; exact hle)
      exact ⟨h.1, by rw [h.2, hzero, zero_add]⟩
    · intro heq
      have hlen : 1 ≤ acts.length := by omega
      exact b2 (by rw [hzero, zero_add]; exact heq) hlen

/-- **C4 witness** — construction part at a concrete configuration and the
trace part on the empty action list. -/
theorem claim_C4_witness :
    ((0:ℝ) ≤ wScale Variant.toCenter badConfig * badConfig.max_step_scale ∧
      ∃ nav, mkNavigation Variant.toCenter badConfig = Except.ok nav ∧
        nav.max_steps =
          ⌊wScale Variant.toCenter badConfig * badConfig.max_step_scale⌋) ∧
    ((runEpisode wEnv []).stop = false ∧
      (runEpisode wEnv []).num_steps = 0) := by
  have hpos : (0:ℝ) ≤ wScale Variant.toCenter badConfig * badConfig.max_step_scale := by
    norm_num [wScale, badConfig]
  refine ⟨⟨hpos, _, rfl, claim_C4_step_budget.1 Variant.toCenter badConfig _ hpos rfl⟩, ?_⟩
  have h := (claim_C4_step_budget.2.2.2.2 wEnv [] (by simp) rfl rfl
    (by norm_num [wEnv]) (by intro k hk; simp at hk)).1 (by simp [wEnv])
  exact ⟨h.1, by rw [h.2]; simp⟩

end SimpleNav
